import Mathlib

/-!
Verification of the Ubuntu image fetcher (src/ubuntu_image_fetcher.py).

The program is embedded shallowly: each Python method becomes a Lean
function over explicit data.  Filesystem and network effects are made
explicit: the set of files in the download directory, the persisted hash
list and the in-memory hash set form a `FetcherState`; the outcome of the
HTTP requests, the clock and the success of the filesystem writes form a
`FetchEnv`.  Strings are processed over `List Char` with structural
recursion so that every definition evaluates by kernel reduction.
-/

namespace UbuntuImageFetcher

/-! ### Character and string helpers (models of the Python primitives used) -/

/-- Model of Python `str.lower()` restricted to ASCII (the only case the
headers and URLs in question exercise). -/
def lowerStr (s : String) : String :=
  String.mk (s.data.map Char.toLower)

/-- Characters stripped by Python `str.strip()` and by `int(str)`:
space, tab, newline, carriage return, vertical tab, form feed. -/
def isPySpace (c : Char) : Bool :=
  c = ' ' || c = '\t' || c = '\n' || c = '\r' || c = '\x0b' || c = '\x0c'

/-- Strip leading and trailing whitespace, as Python `str.strip()` does. -/
def pyStrip (l : List Char) : List Char :=
  ((l.dropWhile isPySpace).reverse.dropWhile isPySpace).reverse

/-- Model of Python `str.strip()` on strings. -/
def pyStripStr (s : String) : String :=
  String.mk (pyStrip s.data)

/-- Accumulating digit parser: digits, with a single underscore allowed
only between two digits (the Python `int` literal rule). `acc` is the
value of the digits already consumed. -/
def parseDigitsAux (acc : Nat) : List Char → Option Nat
  | [] => some acc
  | c :: rest =>
    if c.isDigit then parseDigitsAux (acc * 10 + (c.toNat - 48)) rest
    else if c = '_' then
      match rest with
      | [] => none
      | d :: rest2 =>
        if d.isDigit then parseDigitsAux (acc * 10 + (d.toNat - 48)) rest2
        else none
    else none

/-- Parse a non-empty digit string (underscores between digits allowed);
the first character must be a digit. -/
def parseDigits (l : List Char) : Option Nat :=
  match l with
  | [] => none
  | c :: _ => if c.isDigit then parseDigitsAux 0 l else none

/-- Model of Python `int(s)` on a decimal string: surrounding whitespace
is stripped, an optional sign is consumed, and the rest must be digits
(with underscores between digits).  `none` models the `ValueError` raised
on any other input.  Restricted to ASCII digits. -/
def pyInt (l : List Char) : Option Int :=
  match pyStrip l with
  | '-' :: rest => (parseDigits rest).map (fun n => -(n : Int))
  | '+' :: rest => (parseDigits rest).map (fun n => (n : Int))
  | s => (parseDigits s).map (fun n => (n : Int))

/-! ### Header validation (`_validate_image_headers`, lines 54-74) -/

/-- Response metadata seen by `_validate_image_headers`:
`response.headers.get` yields `none` when a header is absent. -/
structure Headers where
  contentType : Option String
  contentLength : Option String
deriving DecidableEq

/-- Embedding of `UbuntuImageFetcher._validate_image_headers`.

Line-by-line model of the source:
  content_type is the Content-Type header, defaulted to the empty string
  when absent, then lowercased: `lowerStr (getD the-empty-string)`;
  the startswith test is a list-prefix test on the character data;
  `if content_length:` is false for an absent or empty header, so the size
  check runs only for a present non-empty string; `int(content_length)`
  is `pyInt`, whose failure (ValueError) is swallowed by the `pass`.
  Python computes `size_mb = int(content_length) / (1024 * 1024)` in
  binary floating point and tests `size_mb > 50`; since 1048576 is a
  power of two the quotient comparison is exact and equivalent to the
  integer comparison `50 * 1048576 < n` used here.  The oversize
  message interpolates the computed size in Python; the numeric
  interpolation is elided here, no claim depends on that text. -/
def validate_image_headers (resp : Headers) : Bool × String :=
  let content_type := lowerStr (resp.contentType.getD "")
  if ("image/".data.isPrefixOf content_type.data) = false then
    (false, "Content-Type \x27" ++ content_type ++ "\x27 is not an image")
  else
    match resp.contentLength with
    | none => (true, "Headers validated successfully")
    | some cl =>
      if cl = "" then (true, "Headers validated successfully")
      else
        match pyInt cl.data with
        | none => (true, "Headers validated successfully")
        | some n =>
          if 50 * 1048576 < n then (false, "Image too large. Limit: 50MB")
          else (true, "Headers validated successfully")

/-- C10: a response with no Content-Type header is treated as the empty
content-type string, which does not start with the image media-type
marker, so validation fails with the non-image explanation, whatever the
declared content-length is. -/
theorem c10_missing_content_type_fails (cl : Option String) :
    validate_image_headers { contentType := none, contentLength := cl } =
      (false, "Content-Type \x27\x27 is not an image") := rfl

/-- C2 counterexample: the declared content-type string is compared only
after lowercasing, so the declared string can fail to start with
the literal characters image/ and still pass validation; the declared
content-type IMAGE/png is such an input. -/
theorem c2_counterexample :
    ("image/".data.isPrefixOf "IMAGE/png".data) = false ∧
      (validate_image_headers
        { contentType := some "IMAGE/png", contentLength := none }).1 = true := by
  decide

/-- C2 (amended): for every response whose declared content-type string,
once lowercased, does not begin with image/, header validation returns
failure together with the explanatory non-image message; in particular a
declared content-type of text/html fails regardless of content-length. -/
theorem c2_nonimage_fails (resp : Headers)
    (h : ("image/".data.isPrefixOf (lowerStr (resp.contentType.getD "")).data) = false) :
    (validate_image_headers resp).1 = false ∧
      (validate_image_headers resp).2 =
        "Content-Type \x27" ++ lowerStr (resp.contentType.getD "") ++ "\x27 is not an image" := by
  have h2 : validate_image_headers resp =
      (false, "Content-Type \x27" ++ lowerStr (resp.contentType.getD "") ++
        "\x27 is not an image") := by
    simp only [validate_image_headers]
    rw [if_pos h]
  rw [h2]
  exact ⟨rfl, rfl⟩

/-- Witness for C2: a text/html declaration fails even with a benign
declared content-length. -/
theorem c2_witness :
    (validate_image_headers
      { contentType := some "text/html", contentLength := some "1000" }).1 = false :=
  (c2_nonimage_fails { contentType := some "text/html", contentLength := some "1000" }
    (by decide)).1

/-- C3: for an image content-type and a present, parseable declared
content-length L, validation fails exactly when L / 1048576 exceeds 50
(the division exact as in the source, here over the rationals). -/
theorem c3_size_limit (ct s : String) (L : Int)
    (hct : ("image/".data.isPrefixOf (lowerStr ct).data) = true)
    (hs : s ≠ "")
    (hL : pyInt s.data = some L) :
    ((validate_image_headers { contentType := some ct, contentLength := some s }).1 = false ↔
      (L : ℚ) / 1048576 > 50) := by
  have hrw : validate_image_headers { contentType := some ct, contentLength := some s } =
      if 50 * 1048576 < L then (false, "Image too large. Limit: 50MB")
      else (true, "Headers validated successfully") := by
    simp only [validate_image_headers, Option.getD_some]
    rw [if_neg (by simp [hct]), if_neg hs, hL]
  rw [hrw]
  have hpos : (0 : ℚ) < 1048576 := by norm_num
  by_cases hlt : 50 * 1048576 < L
  · rw [if_pos hlt]
    have hq : (L : ℚ) / 1048576 > 50 := by
      rw [gt_iff_lt, lt_div_iff₀ hpos]
      exact_mod_cast hlt
    simp [hq]
  · rw [if_neg hlt]
    have hq : ¬ ((L : ℚ) / 1048576 > 50) := by
      rw [gt_iff_lt, lt_div_iff₀ hpos]
      exact fun hc => hlt (by exact_mod_cast hc)
    simp [hq]

/-- Witness for C3: a declared length of 51 MB (53477376 bytes) fails,
one of 49 MB (51380224 bytes) passes. -/
theorem c3_witness :
    (validate_image_headers
      { contentType := some "image/jpeg", contentLength := some "53477376" }).1 = false ∧
    (validate_image_headers
      { contentType := some "image/jpeg", contentLength := some "51380224" }).1 = true := by
  refine ⟨?_, by decide⟩
  exact (c3_size_limit "image/jpeg" "53477376" 53477376 (by decide) (by decide)
    (by decide)).mpr (by norm_num)

/-- C9: for an image content-type, a declared content-length that Python
`int` cannot parse is treated as size unknown and validation succeeds. -/
theorem c9_unparseable_length_ok (ct s : String)
    (hct : ("image/".data.isPrefixOf (lowerStr ct).data) = true)
    (hL : pyInt s.data = none) :
    validate_image_headers { contentType := some ct, contentLength := some s } =
      (true, "Headers validated successfully") := by
  simp only [validate_image_headers, Option.getD_some]
  rw [if_neg (by simp [hct])]
  by_cases hcl : s = ""
  · rw [if_pos hcl]
  · rw [if_neg hcl, hL]

/-- Witness for C9: a garbage declared content-length passes validation. -/
theorem c9_witness :
    validate_image_headers
      { contentType := some "image/png", contentLength := some "12ab" } =
      (true, "Headers validated successfully") :=
  c9_unparseable_length_ok "image/png" "12ab" (by decide) (by decide)

/-! ### Filename generation (`_generate_filename`, lines 76-95) -/

/-- Characters allowed in a URL scheme by `urllib.parse`: letters, digits
and plus, minus, dot. -/
def isSchemeChar (c : Char) : Bool :=
  c.isAlpha || c.isDigit || c = '+' || c = '-' || c = '.'

/-- Schemes for which `urllib.parse.urlparse` separates the params field
of the last path segment (the `uses_params` list of the stdlib). -/
def uses_params : List String :=
  ["", "ftp", "hdl", "prospero", "http", "imap", "https", "shttp", "rtsp",
   "rtspu", "sip", "sips", "mms", "sftp", "tel"]

/-- Model of `urllib.parse._splitparams`: drop a semicolon part from the
final path segment (a semicolon in an earlier segment is kept). -/
def splitParams (l : List Char) : List Char :=
  if l.contains '/' then
    let base := (l.reverse.takeWhile (fun c => c ≠ '/')).reverse
    let dir := l.take (l.length - base.length)
    dir ++ base.takeWhile (fun c => c ≠ ';')
  else l.takeWhile (fun c => c ≠ ';')

/-- Model of `urllib.parse.urlparse(url).path`: a scheme (letters before
the first colon, first of them alphabetic) is dropped; a netloc
introduced by a double slash runs to the next slash, question mark or
hash; the path then ends at the first hash or question mark, and for the
schemes of `uses_params` the params field of the final segment is
dropped. -/
def urlparse_path (url : String) : String :=
  let l := url.data
  let before := l.takeWhile (fun c => c ≠ ':')
  let hasScheme := before.length < l.length && !before.isEmpty &&
    (before.headD 'a').isAlpha && before.all isSchemeChar
  let scheme := if hasScheme then String.mk (before.map Char.toLower) else ""
  let rest := if hasScheme then l.drop (before.length + 1) else l
  let afterNetloc :=
    match rest with
    | '/' :: '/' :: r => r.dropWhile (fun c => c ≠ '/' && c ≠ '?' && c ≠ '#')
    | _ => rest
  let path := (afterNetloc.takeWhile (fun c => c ≠ '#')).takeWhile (fun c => c ≠ '?')
  let path := if uses_params.contains scheme then splitParams path else path
  String.mk path

/-- Value of an ASCII hexadecimal digit. -/
def hexDigitVal (c : Char) : Option Nat :=
  if c.isDigit then some (c.toNat - 48)
  else if 'a' ≤ c && c ≤ 'f' then some (c.toNat - 87)
  else if 'A' ≤ c && c ≤ 'F' then some (c.toNat - 55)
  else none

/-- Model of `urllib.parse.unquote`: a percent sign followed by two hex
digits decodes to that byte; an invalid escape is kept literally.  Each
byte is decoded to the character of its code point, which agrees with
Python for ASCII escapes (Python additionally reassembles multi-byte
UTF-8 sequences; no claim exercises those). -/
def unquoteChars : List Char → List Char
  | [] => []
  | '%' :: a :: b :: rest =>
    match hexDigitVal a, hexDigitVal b with
    | some x, some y => Char.ofNat (16 * x + y) :: unquoteChars rest
    | _, _ => '%' :: unquoteChars (a :: b :: rest)
  | c :: rest => c :: unquoteChars rest

/-- Model of `os.path.basename` (POSIX): everything after the last
slash. -/
def basenameChars (l : List Char) : List Char :=
  (l.reverse.takeWhile (fun c => c ≠ '/')).reverse

/-- The candidate filename of `_generate_filename` line 81:
`os.path.basename(unquote(urlparse(url).path))`. -/
def url_filename_candidate (url : String) : List Char :=
  basenameChars (unquoteChars (urlparse_path url).data)

/-- Model of `mimetypes.guess_extension` on the common image media
types.  The stdlib table is platform dependent; the claims depend only
on there being a known-extension lookup with `none` for unknown types. -/
def guess_extension (content_type : String) : Option String :=
  let ty := lowerStr content_type
  if ty = "image/jpeg" then some ".jpg"
  else if ty = "image/png" then some ".png"
  else if ty = "image/gif" then some ".gif"
  else if ty = "image/bmp" then some ".bmp"
  else if ty = "image/webp" then some ".webp"
  else if ty = "image/tiff" then some ".tiff"
  else if ty = "image/svg+xml" then some ".svg"
  else if ty = "image/x-icon" then some ".ico"
  else none

/-- The character class kept by the sanitization on line 94: alnum or
one of dot, minus, underscore (ASCII model of `str.isalnum`). -/
def isSafeChar (c : Char) : Bool :=
  c.isAlphanum || c == '.' || c == '-' || c == '_'

/-- Embedding of `UbuntuImageFetcher._generate_filename` (lines 76-95).
The current Unix timestamp `int(time.time())` is the explicit argument
`now`. -/
def generate_filename (url : String) (content_type : String) (now : Nat) : String :=
  let filename := url_filename_candidate url
  let filename :=
    if filename.isEmpty || !(filename.contains '.') then
      let extension := (guess_extension content_type).getD ".jpg"
      "ubuntu_image_".data ++ (Nat.repr now).data ++ extension.data
    else filename
  String.mk (filename.filter isSafeChar)

/-! #### Safety of the synthesized characters -/

/-- Every decimal digit character is kept by the sanitizer. -/
lemma digitChar_safe (m : Nat) (hm : m < 10) : isSafeChar (Nat.digitChar m) = true := by
  interval_cases m <;> decide

/-- All characters produced by the digit-string conversion are kept by
the sanitizer (given that the seed characters are). -/
lemma toDigitsCore_safe (fuel : Nat) :
    ∀ (n : Nat) (ds : List Char), (∀ c ∈ ds, isSafeChar c = true) →
      ∀ c ∈ Nat.toDigitsCore 10 fuel n ds, isSafeChar c = true := by
  induction fuel with
  | zero =>
    intro n ds hds c hc
    simpa [Nat.toDigitsCore] using hds c (by simpa [Nat.toDigitsCore] using hc)
  | succ f ih =>
    intro n ds hds c hc
    simp only [Nat.toDigitsCore] at hc
    have hd : ∀ c ∈ (Nat.digitChar (n % 10) :: ds), isSafeChar c = true := by
      intro x hx
      rcases List.mem_cons.mp hx with h | h
      · subst h
        exact digitChar_safe _ (Nat.mod_lt n (by norm_num))
      · exact hds x h
    by_cases h0 : n / 10 = 0
    · rw [if_pos h0] at hc
      exact hd c hc
    · rw [if_neg h0] at hc
      exact ih (n / 10) _ hd c hc

/-- All characters of the decimal representation of a natural number are
kept by the sanitizer. -/
lemma nat_repr_safe (n : Nat) : ∀ c ∈ (Nat.repr n).data, isSafeChar c = true := by
  intro c hc
  have hdata : (Nat.repr n).data = Nat.toDigitsCore 10 (n + 1) n [] := rfl
  rw [hdata] at hc
  exact toDigitsCore_safe (n + 1) n [] (by simp) c hc

/-- Every extension the lookup can produce, and the fallback, survive the
sanitizer unchanged. -/
lemma extension_safe (content_type : String) :
    ∀ c ∈ ((guess_extension content_type).getD ".jpg").data, isSafeChar c = true := by
  simp only [guess_extension]
  split_ifs <;> decide

/-- C8: every character of the filename returned by the resolver is
alphanumeric or one of dot, minus, underscore. -/
theorem c8_sanitized (url content_type : String) (now : Nat) (c : Char)
    (hc : c ∈ (generate_filename url content_type now).data) :
    c.isAlphanum = true ∨ c = '.' ∨ c = '-' ∨ c = '_' := by
  have hsafe : isSafeChar c = true := by
    simp only [generate_filename] at hc
    exact (List.mem_filter.mp hc).2
  simp only [isSafeChar, Bool.or_eq_true, beq_iff_eq] at hsafe
  tauto

/-- Witness for C8 at a concrete URL. -/
theorem c8_witness :
    'c' ∈ (generate_filename "https://example.com/pics/cat.png" "image/png" 0).data ∧
      ('c'.isAlphanum = true ∨ 'c' = '.' ∨ 'c' = '-' ∨ 'c' = '_') :=
  ⟨by decide,
    c8_sanitized "https://example.com/pics/cat.png" "image/png" 0 'c' (by decide)⟩

/-- C7: when the decoded final path segment is empty or has no dot, the
resolver synthesizes the fixed prefix, the Unix timestamp and the
extension derived from the content-type (default .jpg when the type is
unknown). -/
theorem c7_synthesized_name (url content_type : String) (now : Nat)
    (h : url_filename_candidate url = [] ∨
      (url_filename_candidate url).contains '.' = false) :
    generate_filename url content_type now =
      "ubuntu_image_" ++ Nat.repr now ++ (guess_extension content_type).getD ".jpg" := by
  have hcond : ((url_filename_candidate url).isEmpty ||
      !((url_filename_candidate url).contains '.')) = true := by
    rcases h with h | h
    · rw [h]
      decide
    · rw [h]
      simp
  simp only [generate_filename, hcond, if_true]
  have hall : ∀ c ∈ ("ubuntu_image_".data ++ (Nat.repr now).data ++
      ((guess_extension content_type).getD ".jpg").data), isSafeChar c = true := by
    intro c hc
    rcases List.mem_append.mp hc with hc2 | hc2
    · rcases List.mem_append.mp hc2 with hc3 | hc3
      · exact List.all_eq_true.mp (by decide) c hc3
      · exact nat_repr_safe now c hc3
    · exact extension_safe content_type c hc2
  rw [List.filter_eq_self.mpr hall]
  have hdata : ("ubuntu_image_" ++ Nat.repr now ++
      (guess_extension content_type).getD ".jpg").data =
      "ubuntu_image_".data ++ (Nat.repr now).data ++
        ((guess_extension content_type).getD ".jpg").data := by
    simp [String.data_append]
  rw [← hdata]

/-- Witness for C7: a URL with an empty final path segment and an unknown
content-type synthesize the default-extension name. -/
theorem c7_witness :
    (url_filename_candidate "https://example.com/" = [] ∨
      (url_filename_candidate "https://example.com/").contains '.' = false) ∧
      generate_filename "https://example.com/" "text/weird" 12345 =
        "ubuntu_image_12345.jpg" :=
  ⟨Or.inl (by decide),
    (c7_synthesized_name "https://example.com/" "text/weird" 12345
      (Or.inl (by decide))).trans (by decide)⟩

/-! ### Filename collision handling (`fetch_image`, lines 136-143) -/

/-- Model of `pathlib.PurePath.stem` and `.suffix` on a bare filename:
the name splits at its last dot when that dot is neither the first nor
the last character; otherwise the suffix is empty. -/
def idxOfDot : List Char → Option Nat
  | [] => none
  | c :: rest => if c = '.' then some 0 else (idxOfDot rest).map (· + 1)

/-- Split a filename into pathlib stem and suffix. -/
def path_split (nameStr : String) : String × String :=
  let name := nameStr.data
  match idxOfDot name.reverse with
  | none => (nameStr, "")
  | some j =>
    let i := name.length - 1 - j
    if 0 < i ∧ i < name.length - 1 then
      (String.mk (name.take i), String.mk (name.drop i))
    else (nameStr, "")

/-- The candidate tried at counter value k: the f-string
`stem_counter suffix` of line 142. -/
def candidate_name (stem sfx : String) (k : Nat) : String :=
  stem ++ "_" ++ Nat.repr k ++ sfx

/-- The while loop of lines 137-143, with explicit fuel.  The loop
terminates because at most `files.length` candidates can collide, so
`files.length + 1` iterations suffice and the fuel-exhausted fallback is
never reached. -/
def find_free_name (files : List String) (stem sfx : String) :
    Nat → Nat → String
  | counter, 0 => candidate_name stem sfx counter
  | counter, f + 1 =>
    if candidate_name stem sfx counter ∈ files then
      find_free_name files stem sfx (counter + 1) f
    else candidate_name stem sfx counter

/-- Embedding of the collision-handling block of `fetch_image`
(lines 136-143) over the set of filenames present in the download
directory. -/
def resolve_collision (files : List String) (filename : String) : String :=
  if filename ∈ files then
    find_free_name files (path_split filename).1 (path_split filename).2 1
      (files.length + 1)
  else filename

/-- The loop returns the first free candidate at or after the current
counter, provided one exists within the fuel. -/
lemma find_free_name_eq (files : List String) (stem sfx : String)
    (k : Nat) (hfree : candidate_name stem sfx k ∉ files) :
    ∀ (fuel c : Nat), c ≤ k → k < c + fuel →
      (∀ j, c ≤ j → j < k → candidate_name stem sfx j ∈ files) →
      find_free_name files stem sfx c fuel = candidate_name stem sfx k := by
  intro fuel
  induction fuel with
  | zero => omega
  | succ f ih =>
    intro c hck hfuel hbusy
    simp only [find_free_name]
    by_cases hc : candidate_name stem sfx c ∈ files
    · rw [if_pos hc]
      have hck2 : c + 1 ≤ k := by
        rcases Nat.eq_or_lt_of_le hck with heq | hlt
        · subst heq
          exact absurd hc hfree
        · omega
      exact ih (c + 1) hck2 (by omega) (fun j hj1 hj2 => hbusy j (by omega) hj2)
    · rw [if_neg hc]
      have hceq : c = k := by
        by_contra hne
        exact hc (hbusy c le_rfl (lt_of_le_of_ne hck hne))
      rw [hceq]

/-- C4: when the resolved filename collides, the loop tries
`stem_1 suffix`, `stem_2 suffix`, … in sequence and returns the first
candidate not present in the directory. -/
theorem c4_collision_suffix (files : List String) (filename : String) (k : Nat)
    (hmem : filename ∈ files)
    (h1 : 1 ≤ k)
    (hbound : k ≤ files.length + 1)
    (hfree : candidate_name (path_split filename).1 (path_split filename).2 k ∉ files)
    (hbusy : ∀ j, 1 ≤ j → j < k →
      candidate_name (path_split filename).1 (path_split filename).2 j ∈ files) :
    resolve_collision files filename =
      candidate_name (path_split filename).1 (path_split filename).2 k := by
  unfold resolve_collision
  rw [if_pos hmem]
  exact find_free_name_eq files _ _ k hfree (files.length + 1) 1 h1 (by omega) hbusy

/-- Witness for C4: with photo.jpg present the resolver yields
photo_1.jpg, and with both present it yields photo_2.jpg. -/
theorem c4_witness :
    resolve_collision ["photo.jpg"] "photo.jpg" = "photo_1.jpg" ∧
      resolve_collision ["photo.jpg", "photo_1.jpg"] "photo.jpg" = "photo_2.jpg" := by
  constructor
  · exact (c4_collision_suffix ["photo.jpg"] "photo.jpg" 1 (by decide) (by decide)
      (by decide) (by decide) (by intro j hj1 hj2; omega)).trans (by decide)
  · exact (c4_collision_suffix ["photo.jpg", "photo_1.jpg"] "photo.jpg" 2 (by decide)
      (by decide) (by decide) (by decide)
      (by intro j hj1 hj2; have hj : j = 1 := by omega
          subst hj; decide)).trans (by decide)

/-! ### Fetch orchestrator state and environment -/

/-- The mutable data `fetch_image` touches: the in-memory hash set
`self.downloaded_hashes`, the filenames present in the download
directory, and the lines of the persisted hash list
`.image_hashes.txt`. -/
structure FetcherState where
  downloaded_hashes : List String
  files : List String
  hashFile : List String
deriving DecidableEq

/-- The effects outside the program, made explicit per fetch: the HEAD
response headers (`none` models a timeout, connection error or
`raise_for_status` failure), the GET response headers and body bytes
(`none` likewise), the clock `int(time.time())`, and whether the image
write and the hash-list append succeed on the filesystem. -/
structure FetchEnv where
  head : Option Headers
  get : Option (Headers × List Nat)
  now : Nat
  writeOk : Bool
  persistOk : Bool

/-- Embedding of `UbuntuImageFetcher._save_hash` (lines 40-48): the
append to the persisted file happens first and the in-memory `add` only
after it, inside the same `try`; when the append raises, the exception
is caught, reported, and neither structure changes. -/
def save_hash (persistOk : Bool) (st : FetcherState) (file_hash : String) : FetcherState :=
  if persistOk then
    { st with
      hashFile := st.hashFile ++ [file_hash],
      downloaded_hashes := file_hash :: st.downloaded_hashes }
  else st

/-- Embedding of `UbuntuImageFetcher.fetch_image` (lines 97-174) over an
explicit environment.  `md5` abstracts `hashlib.md5(content).hexdigest()`
(the digest itself is stdlib code; only its value matters here).  Every
caught exception path returns `false` with the state unchanged; console
reporting is not modelled. -/
def fetch_image (md5 : List Nat → String) (env : FetchEnv) (url : String)
    (st : FetcherState) : Bool × FetcherState :=
  match env.head with
  | none => (false, st)
  | some head_response =>
    if (validate_image_headers head_response).1 = false then (false, st)
    else
      match env.get with
      | none => (false, st)
      | some (resp_headers, content) =>
        let file_hash := md5 content
        if file_hash ∈ st.downloaded_hashes then (true, st)
        else
          let content_type := resp_headers.contentType.getD "image/jpeg"
          let filename := generate_filename url content_type env.now
          let filepath := resolve_collision st.files filename
          if env.writeOk then
            (true, save_hash env.persistOk
              { st with files := filepath :: st.files } file_hash)
          else (false, st)

/-- C1: when the hash of the downloaded bytes is already in the
in-memory set, `fetch_image` returns True and leaves the state — in
particular the directory contents — unchanged: no file is written. -/
theorem c1_duplicate_is_success (md5 : List Nat → String) (env : FetchEnv)
    (url : String) (st : FetcherState) (hh gh : Headers) (content : List Nat)
    (hhead : env.head = some hh)
    (hvalid : (validate_image_headers hh).1 = true)
    (hget : env.get = some (gh, content))
    (hdup : md5 content ∈ st.downloaded_hashes) :
    fetch_image md5 env url st = (true, st) := by
  unfold fetch_image
  rw [hhead, hget]
  simp [hvalid, hdup]

/-- Witness for C1 at a concrete environment and state. -/
theorem c1_witness :
    fetch_image (fun _ => "d41d8cd98f00b204e9800998ecf8427e")
      { head := some { contentType := some "image/png", contentLength := none },
        get := some ({ contentType := some "image/png", contentLength := none }, [7, 7]),
        now := 0, writeOk := true, persistOk := true }
      "https://example.com/a.png"
      { downloaded_hashes := ["d41d8cd98f00b204e9800998ecf8427e"], files := ["a.png"],
        hashFile := ["d41d8cd98f00b204e9800998ecf8427e"] } =
      (true,
        { downloaded_hashes := ["d41d8cd98f00b204e9800998ecf8427e"], files := ["a.png"],
          hashFile := ["d41d8cd98f00b204e9800998ecf8427e"] }) :=
  c1_duplicate_is_success _ _ _ _ _ _ [7, 7] rfl (by decide) rfl (by decide)

/-- C6: a successful `_save_hash` puts the hash in both the persisted
list (appended at the end) and the in-memory set, so the two converge on
that hash; and the outcome of `fetch_image` never depends on whether the
persist succeeded — a persistence failure does not abort the fetch. -/
theorem c6_record_converges (st : FetcherState) (h : String)
    (md5 : List Nat → String) (env : FetchEnv) (url : String) :
    (save_hash true st h).hashFile = st.hashFile ++ [h] ∧
      h ∈ (save_hash true st h).downloaded_hashes ∧
      h ∈ (save_hash true st h).hashFile ∧
      (fetch_image md5 { env with persistOk := false } url st).1 =
        (fetch_image md5 { env with persistOk := true } url st).1 := by
  refine ⟨rfl, by simp [save_hash], by simp [save_hash], ?_⟩
  unfold fetch_image
  rcases env with ⟨head, get, now, writeOk, persistOk⟩
  cases head with
  | none => rfl
  | some hh =>
    simp only
    by_cases hv : (validate_image_headers hh).1 = false
    · rw [if_pos hv, if_pos hv]
    · rw [if_neg hv, if_neg hv]
      cases get with
      | none => rfl
      | some pr =>
        rcases pr with ⟨gh, content⟩
        simp only
        by_cases hdup : md5 content ∈ st.downloaded_hashes
        · rw [if_pos hdup, if_pos hdup]
        · rw [if_neg hdup, if_neg hdup]
          cases writeOk <;> rfl

/-! ### Batch runner (`fetch_multiple_images`, lines 176-202) -/

/-- The results dictionary built by `fetch_multiple_images`. -/
structure BatchSummary where
  successful : Nat
  failed : Nat
  total : Nat
deriving DecidableEq

/-- The loop of `fetch_multiple_images`: each URL is stripped of
surrounding whitespace, fetched against its own environment (the state
threading through), and exactly one of the two counters is incremented
according to the boolean outcome.  The 2-second `time.sleep` between
consecutive URLs has no effect on the data and is not modelled. -/
def fetch_multiple_go (md5 : List Nat → String) :
    List (String × FetchEnv) → BatchSummary → FetcherState → BatchSummary × FetcherState
  | [], acc, st => (acc, st)
  | (url, env) :: rest, acc, st =>
    let r := fetch_image md5 env (pyStripStr url) st
    let acc2 := if r.1 then { acc with successful := acc.successful + 1 }
      else { acc with failed := acc.failed + 1 }
    fetch_multiple_go md5 rest acc2 r.2

/-- Embedding of `UbuntuImageFetcher.fetch_multiple_images`: the summary
starts at `{0, 0, len(urls)}` and is folded over the URL list. -/
def fetch_multiple_images (md5 : List Nat → String) (items : List (String × FetchEnv))
    (st : FetcherState) : BatchSummary × FetcherState :=
  fetch_multiple_go md5 items { successful := 0, failed := 0, total := items.length } st

/-- The sequence of per-URL boolean outcomes of a batch run, state
threaded in order. -/
def batchOutcomes (md5 : List Nat → String) :
    List (String × FetchEnv) → FetcherState → List Bool
  | [], _ => []
  | (url, env) :: rest, st =>
    let r := fetch_image md5 env (pyStripStr url) st
    r.1 :: batchOutcomes md5 rest r.2

/-- The loop adds the number of true outcomes to `successful`, the
number of false outcomes to `failed`, and never touches `total`. -/
lemma fetch_multiple_go_spec (md5 : List Nat → String) :
    ∀ (items : List (String × FetchEnv)) (acc : BatchSummary) (st : FetcherState),
      (fetch_multiple_go md5 items acc st).1.successful =
          acc.successful + (batchOutcomes md5 items st).count true ∧
        (fetch_multiple_go md5 items acc st).1.failed =
          acc.failed + (batchOutcomes md5 items st).count false ∧
        (fetch_multiple_go md5 items acc st).1.total = acc.total := by
  intro items
  induction items with
  | nil =>
    intro acc st
    simp [fetch_multiple_go, batchOutcomes]
  | cons p rest ih =>
    intro acc st
    rcases p with ⟨url, env⟩
    simp only [fetch_multiple_go, batchOutcomes]
    rcases ih (if (fetch_image md5 env (pyStripStr url) st).1 then
        { acc with successful := acc.successful + 1 }
        else { acc with failed := acc.failed + 1 })
      (fetch_image md5 env (pyStripStr url) st).2 with ⟨ihs, ihf, iht⟩
    rw [ihs, ihf, iht]
    cases hr : (fetch_image md5 env (pyStripStr url) st).1 <;>
      simp [hr, List.count_cons] <;> omega

/-- In a list of booleans the trues and falses account for every
element. -/
lemma count_true_add_count_false (l : List Bool) :
    l.count true + l.count false = l.length := by
  induction l with
  | nil => simp
  | cons b rest ih =>
    cases b <;> simp [List.count_cons] <;> omega

/-- C5: the batch summary satisfies successful + failed = total =
number of input URLs, each URL counted exactly once according to the
boolean outcome of `fetch_image` on the whitespace-trimmed URL. -/
theorem c5_batch_summary (md5 : List Nat → String)
    (items : List (String × FetchEnv)) (st : FetcherState) :
    (fetch_multiple_images md5 items st).1.successful +
        (fetch_multiple_images md5 items st).1.failed =
        (fetch_multiple_images md5 items st).1.total ∧
      (fetch_multiple_images md5 items st).1.total = items.length ∧
      (fetch_multiple_images md5 items st).1.successful =
        (batchOutcomes md5 items st).count true ∧
      (fetch_multiple_images md5 items st).1.failed =
        (batchOutcomes md5 items st).count false := by
  have hlen : (batchOutcomes md5 items st).length = items.length := by
    induction items generalizing st with
    | nil => rfl
    | cons p rest ih =>
      rcases p with ⟨url, env⟩
      simp [batchOutcomes, ih]
  rcases fetch_multiple_go_spec md5 items
      { successful := 0, failed := 0, total := items.length } st with ⟨hs, hf, ht⟩
  unfold fetch_multiple_images
  rw [hs, hf, ht]
  refine ⟨?_, rfl, by simp, by simp⟩
  simpa using (count_true_add_count_false (batchOutcomes md5 items st)).trans hlen

end UbuntuImageFetcher
